import Mathlib

/-!
Verification of the task scheduling and agent-process orchestration subsystem
of the agent-monitor service: a shallow embedding of `scheduler.py`,
`services/rate_limiter.py` and `claude_runner.py`, with theorems settling the
specification claims about dependency gating, retry bounds, rate-limit gates,
idle-agent discovery, permission-prompt detection, temp-file cleanup and
cancellation.

Database records are embedded as Lean structures; the SQLite store backing
`database.py` is a list of rows (task `id` is the PRIMARY KEY, so hypotheses
may assume the projected id list has no duplicates).  Broadcast notifications
are modelled as an event log, representing runs where a broadcast callback is
configured.  Wall-clock timestamps are threaded as opaque strings.
-/

namespace AgentMonitor

/-- Task lifecycle states stored in the `status` column of the tasks table. -/
inductive TaskStatus
  | pending
  | blocked
  | running
  | completed
  | failed
deriving DecidableEq, Repr

/-- A row of the tasks table, after `database.get_task` has parsed the JSON
`depends_on` column into a list.  Fields not read by the scheduler are
omitted; `retry_count` is NOT NULL with default 0 so it is a plain `Nat`
(the Python `task.get("retry_count") or 0` coalesces the absent case). -/
structure Task where
  id : String
  agentId : Option String
  status : TaskStatus
  priority : Int
  retryCount : Nat
  maxRetries : Nat
  dependsOn : List String
  createdAt : String
  startedAt : Option String
  completedAt : Option String
  error : Option String
deriving DecidableEq, Repr

/-- A row of the agents table, restricted to the fields
`TaskScheduler._get_idle_agents` reads. -/
structure Agent where
  id : String
  name : String
  status : String
  isLeader : Bool
deriving DecidableEq, Repr

/-- Broadcast messages sent through the scheduler's broadcast callback,
identified by their `type` field and the payload fields the claims mention. -/
inductive Event
  | schedulerPaused (reason : String)
  | schedulerResumed
  | taskUnblocked (taskId : String)
  | taskStarted (taskId : String) (agentId : String)
  | taskCompleted (taskId : String)
  | taskRetry (taskId : String) (retryCount : Nat)
  | taskFailed (taskId : String)
deriving DecidableEq, Repr

/-- Parsed `.claude/team-state.yaml` contents: the optional `mode` key and the
`agents` map from agent name to the optional `status` key of its entry. -/
structure TeamState where
  mode : Option String
  agents : List (String × Option String)
deriving DecidableEq, Repr

/-- The three states the team-state file can be in when
`TaskScheduler._get_team_state` reads it. -/
inductive TeamFile
  | missing
  | unparseable
  | parsed (ts : TeamState)
deriving DecidableEq, Repr

/-- Today's usage row extracted from `stats-cache.json` by
`RateLimitMonitor.get_today_usage` (message count and summed token count). -/
structure UsageStats where
  messagesToday : Nat
  tokensToday : Nat
deriving DecidableEq, Repr

/-- The state a scheduler pass reads and writes: the project's task rows and
agent rows, the team-state file, the usage snapshot, the pause flag, whether
the dispatch script resolves to an existing file, the in-flight dispatch map
(keyed by task id, values abstracted away), and the broadcast log. -/
structure SchedState where
  db : List Task
  agents : List Agent
  teamFile : TeamFile
  usage : UsageStats
  pausedForRateLimit : Bool
  dispatchScriptExists : Bool
  runningDispatches : List String
  log : List Event
deriving DecidableEq, Repr

/-- Lookup of `database.get_task`: first row whose id matches. -/
def getTask (db : List Task) (i : String) : Option Task :=
  db.find? (fun t => t.id == i)

/-- Partial-field update of `database.update_task`: the row whose id matches
is mapped through `f` (each call site instantiates `f` with the record update
for exactly the fields the Python call supplies). -/
def updateTaskWith (db : List Task) (i : String) (f : Task → Task) : List Task :=
  db.map (fun t => if t.id == i then f t else t)

/-- Filter of `database.get_blocked_tasks` (`list_tasks` with status
"blocked"). -/
def blockedTasks (db : List Task) : List Task :=
  db.filter (fun t => t.status == TaskStatus.blocked)

/-- Ordering predicate of the default `list_tasks` sort:
priority DESC, created_at ASC. -/
def taskOrder (a b : Task) : Bool :=
  b.priority < a.priority || (a.priority == b.priority && a.createdAt ≤ b.createdAt)

/-- Query of `db.list_tasks(project, status="pending", order_by="priority
DESC, created_at ASC")`. -/
def pendingTasks (db : List Task) : List Task :=
  (db.filter (fun t => t.status == TaskStatus.pending)).mergeSort taskOrder

/-- The `agent_id` column of every running task, as sampled inside
`_get_idle_agents` (`[t.get("agent_id") for t in db.list_tasks(...,
status="running")]`). -/
def runningAgentIds (db : List Task) : List (Option String) :=
  (db.filter (fun t => t.status == TaskStatus.running)).map (fun t => t.agentId)

/-- Reading of `TaskScheduler._get_team_state`: a missing or unparseable file
degrades to the default `{"mode": "scheduled", "agents": {}}`. -/
def getTeamState : TeamFile → TeamState
  | TeamFile.missing => { mode := some "scheduled", agents := [] }
  | TeamFile.unparseable => { mode := some "scheduled", agents := [] }
  | TeamFile.parsed ts => ts

/-- Transient agent status from team state:
`agent_states.get(agent_name, {}).get("status", "idle")`. -/
def teamAgentStatus (ts : TeamState) (name : String) : String :=
  match ts.agents.lookup name with
  | some (some st) => st
  | some none => "idle"
  | none => "idle"

/-- Daily message limit `DEFAULT_DAILY_MESSAGE_LIMIT`. -/
def DEFAULT_DAILY_MESSAGE_LIMIT : Nat := 10000

/-- Daily token limit `DEFAULT_DAILY_TOKEN_LIMIT`. -/
def DEFAULT_DAILY_TOKEN_LIMIT : Nat := 2000000

/-- Decision of `RateLimitMonitor.should_pause` at the default
`warning_threshold=0.9`.  The Python comparisons are against the IEEE-754
double products `10000 * 0.9` and `2_000_000 * 0.9`, which round to exactly
`9000.0` and `1800000.0`, so the integer comparisons below are exact. -/
def shouldPause (u : UsageStats) : Bool × String :=
  if 9000 ≤ u.messagesToday then
    (true, "Daily message limit reached (" ++ toString u.messagesToday ++ "/"
      ++ toString DEFAULT_DAILY_MESSAGE_LIMIT ++ ")")
  else if 1800000 ≤ u.tokensToday then
    (true, "Daily token limit reached (" ++ toString u.tokensToday ++ "/"
      ++ toString DEFAULT_DAILY_TOKEN_LIMIT ++ ")")
  else
    (false, "")

/-- Decision of `RateLimitMonitor.should_throttle` at the default
`warning_threshold=0.7`.  The double products `10000 * 0.7` and
`2_000_000 * 0.7` round to exactly `7000.0` and `1400000.0`. -/
def shouldThrottle (u : UsageStats) : Bool × String :=
  if 7000 ≤ u.messagesToday then
    (true, "Approaching message limit (" ++ toString u.messagesToday ++ "/"
      ++ toString DEFAULT_DAILY_MESSAGE_LIMIT ++ ")")
  else if 1400000 ≤ u.tokensToday then
    (true, "Approaching token limit (" ++ toString u.tokensToday ++ "/"
      ++ toString DEFAULT_DAILY_TOKEN_LIMIT ++ ")")
  else
    (false, "")

/-- Predicate checked by the dependency loop of `_update_blocked_tasks`: every
listed dependency id resolves to a task whose status is completed
(`if not dep_task or dep_task["status"] != "completed"` clears the flag). -/
def depsAllCompleted (db : List Task) (deps : List String) : Bool :=
  deps.all (fun d =>
    match getTask db d with
    | some t => t.status == TaskStatus.completed
    | none => false)

/-- Body of the per-task loop in `TaskScheduler._update_blocked_tasks`: an
empty dependency list transitions the task to pending and continues (without
broadcasting); otherwise, when all dependencies are completed, the task is
transitioned to pending and a task_unblocked broadcast is emitted. -/
def processBlockedTask (s : SchedState) (t : Task) : SchedState :=
  if t.dependsOn.isEmpty then
    { s with db := updateTaskWith s.db t.id (fun u => { u with status := TaskStatus.pending }) }
  else if depsAllCompleted s.db t.dependsOn then
    { s with
      db := updateTaskWith s.db t.id (fun u => { u with status := TaskStatus.pending }),
      log := s.log ++ [Event.taskUnblocked t.id] }
  else s

/-- `TaskScheduler._update_blocked_tasks`: iterate the blocked-task snapshot
taken at entry, updating the store as it goes. -/
def updateBlockedTasks (s : SchedState) : SchedState :=
  (blockedTasks s.db).foldl processBlockedTask s

/-- Matching rule of `TaskScheduler._find_task_for_agent`: first a pending
task already assigned to this agent, otherwise the first unassigned task
(`not task.get("agent_id")` is true for a null or empty agent id). -/
def findTaskForAgent (tasks : List Task) (a : Agent) : Option Task :=
  match tasks.find? (fun t => t.agentId == some a.id) with
  | some t => some t
  | none => tasks.find? (fun t => t.agentId.getD "" == "")

/-- Filter of `TaskScheduler._get_idle_agents`: drop the leader, drop inactive
agents, keep only agents whose team-state status is idle or done, and drop any
agent that is the `agent_id` of a running task. -/
def getIdleAgents (s : SchedState) : List Agent :=
  let agentStates := getTeamState s.teamFile
  s.agents.filter (fun a =>
    !a.isLeader &&
    a.status == "active" &&
    ((teamAgentStatus agentStates a.name == "idle"
        || teamAgentStatus agentStates a.name == "done") &&
      !(runningAgentIds s.db).contains (some a.id)))

/-- Retry-or-fail reconciliation of `TaskScheduler._handle_task_failure`,
applied to the in-memory task dict `t`: the incremented retry count is
persisted only on the retry branch; the terminal branch writes status, the
completion timestamp and the error annotation but leaves `retry_count`,
`agent_id` and `started_at` as they are. -/
def handleTaskFailure (s : SchedState) (t : Task) (err : String) (now : String) : SchedState :=
  let rc := t.retryCount + 1
  if rc ≤ t.maxRetries then
    { s with
      db := updateTaskWith s.db t.id (fun u =>
        { u with
          status := TaskStatus.pending,
          retryCount := rc,
          agentId := none,
          startedAt := none,
          error := some ("Retry " ++ toString rc ++ "/" ++ toString t.maxRetries
            ++ ": " ++ (err.take 200)) }),
      log := s.log ++ [Event.taskRetry t.id rc] }
  else
    { s with
      db := updateTaskWith s.db t.id (fun u =>
        { u with
          status := TaskStatus.failed,
          completedAt := some now,
          error := some ("Failed after " ++ toString t.maxRetries ++ " retries: "
            ++ (err.take 200)) }),
      log := s.log ++ [Event.taskFailed t.id] }

/-- Dispatch step of `TaskScheduler._dispatch_task`: persist the running
state, mirror it into the in-memory dict (returned), broadcast task_started,
then either track the spawned dispatch unit or, when the dispatch script is
missing, route straight to failure reconciliation. -/
def dispatchTask (s : SchedState) (t : Task) (a : Agent) (now : String) : SchedState × Task :=
  let db1 := updateTaskWith s.db t.id (fun u =>
    { u with status := TaskStatus.running, agentId := some a.id, startedAt := some now })
  let t1 := { t with status := TaskStatus.running, agentId := some a.id, startedAt := some now }
  let s1 : SchedState :=
    { s with db := db1, log := s.log ++ [Event.taskStarted t.id a.id] }
  if s.dispatchScriptExists then
    ({ s1 with runningDispatches := s1.runningDispatches ++ [t.id] }, t1)
  else
    (handleTaskFailure s1 t1 "dispatch.sh not found" now, t1)

/-- Removal of a key from the in-flight dispatch dict
(`self._running_tasks.pop(task_id, None)`); dict keys are unique so popping
removes every occurrence of the id. -/
def removeDispatch (l : List String) (i : String) : List String :=
  l.filter (fun j => !(j == i))

/-- Failure path of `TaskScheduler._run_dispatch` for a dispatch subprocess
that exits non-zero: failure reconciliation followed by the `finally` block
that drops the task from the in-flight map. -/
def runDispatchFailure (s : SchedState) (t : Task) (err : String) (now : String) : SchedState :=
  let s1 := handleTaskFailure s t err now
  { s1 with runningDispatches := removeDispatch s1.runningDispatches t.id }

/-- One scheduler-observed round in which the task with id `i` (as fetched
from the store) is dispatched to agent `a` and the dispatch subprocess fails:
`_dispatch_task` followed by `_run_dispatch`'s non-zero-exit path.  When the
dispatch script is missing, `_dispatch_task` already routed to failure
reconciliation and no dispatch unit ran. -/
def failOnce (s : SchedState) (i : String) (a : Agent) (err : String)
    (nowStart nowEnd : String) : SchedState :=
  match getTask s.db i with
  | none => s
  | some t =>
    let p := dispatchTask s t a nowStart
    if s.dispatchScriptExists then runDispatchFailure p.1 p.2 err nowEnd else p.1

/-- `TaskScheduler.cancel_task`: when the id is tracked, cancelling the
dispatch unit runs `_run_dispatch`'s CancelledError handler (reset to pending
with bindings cleared, then the `finally` pop), after which `cancel_task`
persists the failed state with the user-cancellation error and returns true;
an untracked id returns false without touching anything. -/
def cancelTask (s : SchedState) (i : String) (now : String) : SchedState × Bool :=
  if s.runningDispatches.contains i then
    let db1 := updateTaskWith s.db i (fun u =>
      { u with status := TaskStatus.pending, agentId := none, startedAt := none })
    let r1 := removeDispatch s.runningDispatches i
    let db2 := updateTaskWith db1 i (fun u =>
      { u with status := TaskStatus.failed, completedAt := some now,
               error := some "Cancelled by user" })
    ({ s with db := db2, runningDispatches := r1 }, true)
  else
    (s, false)

/-- Assignment loop of `_process_queue` step 5: for each idle agent in turn,
stop when no pending tasks remain, match a task, dispatch it, drop it from the
in-memory candidate list, and stop after one dispatch when throttling. -/
def assignLoop (s : SchedState) (agents : List Agent) (pending : List Task)
    (throttle : Bool) (now : String) : SchedState :=
  match agents with
  | [] => s
  | a :: rest =>
    if pending.isEmpty then s
    else
      match findTaskForAgent pending a with
      | some t =>
        let s1 := (dispatchTask s t a now).1
        if throttle then s1
        else assignLoop s1 rest (pending.erase t) throttle now
      | none => assignLoop s rest pending throttle now

/-- One pass of `TaskScheduler._process_queue`: the rate-limit hard gate with
edge-triggered pause/resume broadcasts, dependency resolution, idle-agent
discovery, the fetch of pending tasks, the throttle soft gate truncating the
idle pool to one agent, and the assignment loop. -/
def processQueue (s : SchedState) (now : String) : SchedState :=
  let pr := shouldPause s.usage
  if pr.1 then
    if !s.pausedForRateLimit then
      { s with pausedForRateLimit := true, log := s.log ++ [Event.schedulerPaused pr.2] }
    else s
  else
    let s0 : SchedState :=
      if s.pausedForRateLimit then
        { s with pausedForRateLimit := false, log := s.log ++ [Event.schedulerResumed] }
      else s
    let s1 := updateBlockedTasks s0
    let idle := getIdleAgents s1
    if idle.isEmpty then s1
    else
      let pending := pendingTasks s1.db
      if pending.isEmpty then s1
      else
        let tr := shouldThrottle s1.usage
        let idle2 := if tr.1 then idle.take 1 else idle
        assignLoop s1 idle2 pending tr.1 now

/-- Number of task_started broadcasts in a log: each dispatch emits exactly
one, so this counts the tasks dispatched. -/
def startedCount (log : List Event) : Nat :=
  (log.filter (fun e =>
    match e with
    | Event.taskStarted _ _ => true
    | _ => false)).length

/-! ### Interactive process-control engine (`claude_runner.py`) -/

/-- Python `str.lower()` on the ASCII range, character by character (the
prompt patterns are all ASCII). -/
def strToLower (s : String) : String :=
  String.mk (s.toList.map Char.toLower)

/-- Characters matched by the regex class `\s` on the ASCII range. -/
def pyIsSpace (c : Char) : Bool :=
  c == ' ' || c == '\t' || c == '\n' || c == '\r' || c == '\x0b' || c == '\x0c'

/-- Characters matched by the regex class `\w` (the scanned text has already
been lowercased by `_check_permission_prompt`). -/
def pyIsWord (c : Char) : Bool :=
  c.isAlpha || c.isDigit || c == '_'

/-- Greedy one-or-more scan of a character class (the regex `\s+` and `\w+`
atoms; each is followed by a disjoint class in the pattern, so the greedy
match is exact and needs no backtracking). -/
def takeWhile1 (p : Char → Bool) (cs : List Char) : Option (List Char × List Char) :=
  let tk := cs.takeWhile p
  if tk.isEmpty then none else some (tk, cs.dropWhile p)

/-- Literal atom of the regex: consume `lit` exactly or fail. -/
def expectLit : List Char → List Char → Option (List Char)
  | [], cs => some cs
  | _ :: _, [] => none
  | l :: ls, c :: cs => if c == l then expectLit ls cs else none

/-- Inner loop of `lazyCapture`: accumulate (reversed) capture characters
until the first `?`, failing on a newline (`.` does not match `\n`) or end of
input. -/
def lazyCaptureGo : List Char → List Char → Option (List Char)
  | _, [] => none
  | acc, c :: rest =>
    if c == '?' then some acc.reverse
    else if c == '\n' then none
    else lazyCaptureGo (c :: acc) rest

/-- The `(.+?)\?` tail of the tool-permission regex: lazily capture at least
one non-newline character up to the first following `?`. -/
def lazyCapture (cs : List Char) : Option (List Char) :=
  match cs with
  | [] => none
  | c0 :: rest =>
    if c0 == '\n' then none
    else lazyCaptureGo [c0] rest

/-- Anchored attempt of the regex `allow\s+(\w+)\s+to\s+(.+?)\?` at the start
of `cs`, returning the two capture groups. -/
def matchAllowAt (cs : List Char) : Option (String × String) := do
  let cs1 ← expectLit ("allow".toList) cs
  let (_, cs2) ← takeWhile1 pyIsSpace cs1
  let (tool, cs3) ← takeWhile1 pyIsWord cs2
  let (_, cs4) ← takeWhile1 pyIsSpace cs3
  let cs5 ← expectLit ("to".toList) cs4
  let (_, cs6) ← takeWhile1 pyIsSpace cs5
  let action ← lazyCapture cs6
  pure (String.mk tool, String.mk action)

/-- Leftmost search of `re.search(r'allow\s+(\w+)\s+to\s+(.+?)\?', text)`:
try the anchored match at every position, left to right. -/
def searchAllow : List Char → Option (String × String)
  | [] => none
  | c :: rest =>
    match matchAllowAt (c :: rest) with
    | some r => some r
    | none => searchAllow rest

/-- Python `str.capitalize()`: first character uppercased, the rest
lowercased. -/
def pyCapitalize (s : String) : String :=
  match s.toList with
  | [] => ""
  | c :: rest => String.mk (c.toUpper :: rest.map Char.toLower)

/-- Whether `pat` occurs at the start of `cs`. -/
def startsWithChars : List Char → List Char → Bool
  | [], _ => true
  | _ :: _, [] => false
  | p :: ps, c :: cs => p == c && startsWithChars ps cs

/-- Whether `pat` occurs anywhere in `hay`. -/
def containsSub (hay pat : List Char) : Bool :=
  match hay with
  | [] => pat.isEmpty
  | _ :: rest => startsWithChars pat hay || containsSub rest pat

/-- Python substring membership `pat in hay`. -/
def strContains (hay pat : String) : Bool :=
  containsSub hay.toList pat.toList

/-- A permission_request event yielded by the runner, restricted to the fields
the detector fills in (`type` is always "permission_request"). -/
structure PermissionEvent where
  prompt : String
  tool : Option String
  action : Option String
  options : List String
deriving DecidableEq, Repr

/-- Detector `ClaudeRunner._check_permission_prompt`: the text is lowercased
once, then a cascade of patterns is tried in order, the first hit producing a
permission_request event. -/
def checkPermissionPrompt (text : String) : Option PermissionEvent :=
  let textLower := strToLower text
  match searchAllow textLower.toList with
  | some (tool, action) =>
    let options :=
      if strContains textLower "(a)lways" || strContains textLower "always" then
        ["Yes", "No", "Always"]
      else ["Yes", "No"]
    some { prompt := text, tool := some (pyCapitalize tool), action := some action,
           options := options }
  | none =>
    if strContains textLower "(y)es" && strContains textLower "(n)o" then
      some { prompt := text, tool := none, action := none,
             options :=
               if strContains textLower "(a)lways" then ["Yes", "No", "Always"]
               else ["Yes", "No"] }
    else if strContains textLower "[y/n]" || strContains textLower "(y/n)" then
      some { prompt := text, tool := none, action := none, options := ["y", "n"] }
    else if strContains textLower "press enter" then
      some { prompt := text, tool := none, action := none, options := ["Continue"] }
    else if strContains textLower "do you want to proceed"
        || strContains textLower "approve this plan" then
      some { prompt := text, tool := none, action := none, options := ["Yes", "No"] }
    else if strContains textLower "run this command"
        || strContains textLower "execute this" then
      some { prompt := text, tool := none, action := none, options := ["Yes", "No"] }
    else none

/-- Runner-side state visible to the permission protocol: the
`_pending_permission` flag (exposed as `waiting_for_input`), the
`_input_queue` contents, and the lines written to the subprocess via
`sendline`. -/
structure RunnerState where
  pendingPermission : Bool
  inputQueue : List String
  sentLines : List String
deriving DecidableEq, Repr

/-- `ClaudeRunner.send_input`: enqueue the response string. -/
def sendInput (r : RunnerState) (resp : String) : RunnerState :=
  { r with inputQueue := r.inputQueue ++ [resp] }

/-- Buffer inspection step of `_run_with_pty`: when no permission is already
pending, run the detector on the accumulated buffer; on a hit, set
`_pending_permission` and emit the event. -/
def detectPromptStep (r : RunnerState) (buffer : String) : RunnerState × Option PermissionEvent :=
  if r.pendingPermission then (r, none)
  else
    match checkPermissionPrompt buffer with
    | some ev => ({ r with pendingPermission := true }, some ev)
    | none => (r, none)

/-- Response delivery step of `_run_with_pty`: await one item from the input
queue, write it to the subprocess with `sendline`, and clear
`_pending_permission` (an empty queue means the await is still blocked, so
nothing changes yet). -/
def awaitResponseStep (r : RunnerState) : RunnerState × Option String :=
  match r.inputQueue with
  | [] => (r, none)
  | resp :: rest =>
    ({ pendingPermission := false, inputQueue := rest,
       sentLines := r.sentLines ++ [resp] }, some resp)

/-! ### Temp-image lifecycle of `ClaudeRunner.run_chat` -/

/-- An entry of the `images` argument of `run_chat`: the data-URL (or raw
base64) payload, plus an abstract flag for whether `base64.b64decode`
succeeds on its data part. -/
structure ImgInput where
  payload : String
  decodeOk : Bool
deriving DecidableEq, Repr

/-- Python `s.split(sep, 1)` when it yields two parts: split at the first
occurrence of `sep`; `none` when `sep` does not occur (tuple unpacking of the
one-element result raises ValueError). -/
def splitFirst (sep : Char) : List Char → Option (List Char × List Char)
  | [] => none
  | c :: rest =>
    if c == sep then some ([], rest)
    else (splitFirst sep rest).map (fun p => (c :: p.1, p.2))

/-- Python `s.split(sep)[0]`: the prefix before the first `sep` (the whole
string when absent). -/
def takeUntil (sep : Char) (cs : List Char) : List Char :=
  cs.takeWhile (fun c => !(c == sep))

/-- Python `s.split(sep)[-1]`: the suffix after the last `sep` (the whole
string when absent). -/
def lastSegment (sep : Char) (cs : List Char) : List Char :=
  (cs.reverse.takeWhile (fun c => !(c == sep))).reverse

/-- Extension extraction of `run_chat`:
`mime = header.split(';')[0].split(':')[1]`, `ext = mime.split('/')[-1]`,
with `jpeg` rewritten to `jpg`; `none` when the `[1]` index raises. -/
def extOfHeader (header : List Char) : Option String :=
  match splitFirst ':' (takeUntil ';' header) with
  | none => none
  | some (_, afterColon) =>
    let ext := String.mk (lastSegment '/' (takeUntil ':' afterColon))
    some (if ext == "jpeg" then "jpg" else ext)

/-- Saving of one image by `run_chat`: parse the data-URL (payloads without
the `data:` prefix are treated as raw base64 with a png extension), decode,
and write `claude_img_{pid}_{i}.{ext}` in the temp directory; any exception
(missing comma, missing mime, decode failure) is caught and the image
skipped. -/
def saveImage (tempDir : String) (pid : Nat) (i : Nat) (img : ImgInput) : Option String :=
  let parsed : Option String :=
    if startsWithChars ("data:".toList) img.payload.toList then
      match splitFirst ',' img.payload.toList with
      | none => none
      | some (header, _) => extOfHeader header
    else some "png"
  match parsed with
  | none => none
  | some ext =>
    if img.decodeOk then
      some (tempDir ++ "/claude_img_" ++ toString pid ++ "_" ++ toString i ++ "." ++ ext)
    else none

/-- The `temp_image_paths` list accumulated by `run_chat`'s save loop. -/
def saveImages (tempDir : String) (pid : Nat) (images : List ImgInput) : List String :=
  images.enum.filterMap (fun p => saveImage tempDir pid p.1 p.2)

/-- The three ways a chat turn can end: normal completion, a raised
exception, or cancellation. -/
inductive RunOutcome
  | success
  | error (msg : String)
  | cancelled
deriving DecidableEq, Repr

/-- Filesystem skeleton of `run_chat`: save the images (creating their temp
files), run the turn with the given outcome, and in the `finally` block unlink
every saved path (`unlink(missing_ok=True)` inside a bare except, so removal
always happens).  The filesystem is the list of existing paths; the second
component is the terminal event stream observed by the caller. -/
def runChat (fs : List String) (tempDir : String) (pid : Nat)
    (images : List ImgInput) (outcome : RunOutcome) : List String × List String :=
  let created := saveImages tempDir pid images
  let fs1 := fs ++ created
  let events :=
    match outcome with
    | RunOutcome.success => ["done"]
    | RunOutcome.error _ => ["error"]
    | RunOutcome.cancelled => ["cancelled"]
  let fs2 := created.foldl (fun f p => f.filter (fun q => !(q == p))) fs1
  (fs2, events)

/-! ### Concrete sample values used to instantiate the theorems -/

/-- A task row with the schema defaults (priority 1, retry_count 0,
max_retries 2) and the given id, status and dependency list. -/
def mkTask (i : String) (st : TaskStatus) (deps : List String) : Task :=
  { id := i, agentId := none, status := st, priority := 1, retryCount := 0,
    maxRetries := 2, dependsOn := deps, createdAt := "2024-01-01",
    startedAt := none, completedAt := none, error := none }

/-- An active non-leader agent row. -/
def mkAgent (i nm : String) : Agent :=
  { id := i, name := nm, status := "active", isLeader := false }

/-- An empty scheduler state with no usage, an existing dispatch script and a
missing team-state file. -/
def baseState : SchedState :=
  { db := [], agents := [], teamFile := TeamFile.missing,
    usage := { messagesToday := 0, tokensToday := 0 },
    pausedForRateLimit := false, dispatchScriptExists := true,
    runningDispatches := [], log := [] }

/-! ### Store lemmas -/

theorem getTask_updateTaskWith (db : List Task) (i j : String) (f : Task → Task)
    (hf : ∀ t, (f t).id = t.id) :
    getTask (updateTaskWith db i f) j =
      if j = i then (getTask db j).map f else getTask db j := by
  induction db with
  | nil => simp [getTask, updateTaskWith]
  | cons t ts ih =>
    have hid : (if t.id == i then f t else t).id = t.id := by
      split
      · exact hf t
      · rfl
    simp only [getTask, updateTaskWith, List.map_cons, List.find?_cons] at *
    generalize ha : (if (t.id == i) = true then f t else t) = a at hid ⊢
    by_cases htj : t.id = j
    · have h2 : (t.id == j) = true := by simp [htj]
      have h1 : (a.id == j) = true := by
        rw [hid]
        exact h2
      simp only [h1, h2]
      by_cases hji : j = i
      · have h3 : (t.id == i) = true := by simp [htj, hji]
        rw [if_pos hji, ← ha, if_pos h3, Option.map_some']
      · have h3 : ¬ ((t.id == i) = true) := by
          simp only [beq_iff_eq]
          exact fun hh => hji (htj.symm.trans hh)
        rw [if_neg hji, ← ha, if_neg h3]
    · have h2 : (t.id == j) = false := by
        simp only [beq_eq_false_iff_ne, ne_eq]
        exact htj
      have h1 : (a.id == j) = false := by
        rw [hid]
        exact h2
      simp only [h1, h2]
      exact ih

theorem map_id_updateTaskWith (db : List Task) (i : String) (f : Task → Task)
    (hf : ∀ t, (f t).id = t.id) :
    (updateTaskWith db i f).map Task.id = db.map Task.id := by
  induction db with
  | nil => rfl
  | cons t ts ih =>
    simp only [updateTaskWith, List.map_cons] at *
    congr 1
    split
    · exact hf t
    · rfl

theorem getTask_eq_of_mem {db : List Task} (hnd : (db.map Task.id).Nodup)
    {t : Task} (ht : t ∈ db) : getTask db t.id = some t := by
  induction db with
  | nil => cases ht
  | cons a ts ih =>
    simp only [List.map_cons, List.nodup_cons] at hnd
    obtain ⟨hna, hnd2⟩ := hnd
    rcases List.mem_cons.mp ht with rfl | hts
    · simp [getTask, List.find?_cons_of_pos]
    · have hne : (a.id == t.id) = false := by
        simp only [beq_eq_false_iff_ne, ne_eq]
        intro hh
        exact hna (by rw [hh]; exact List.mem_map_of_mem Task.id hts)
      simp only [getTask] at *
      rw [List.find?_cons_of_neg _ (by simp [hne])]
      exact ih hnd2 hts

theorem task_eq_of_id_eq {l : List Task} (hnd : (l.map Task.id).Nodup)
    {a b : Task} (ha : a ∈ l) (hb : b ∈ l) (h : a.id = b.id) : a = b := by
  have h1 := getTask_eq_of_mem hnd ha
  have h2 := getTask_eq_of_mem hnd hb
  rw [h] at h1
  exact Option.some.inj (h1.symm.trans h2)

theorem depsAllCompleted_update_pending (db : List Task) (i : String) (deps : List String)
    {u : Task} (hu : getTask db i = some u) (hb : u.status = TaskStatus.blocked) :
    depsAllCompleted
      (updateTaskWith db i (fun t => { t with status := TaskStatus.pending })) deps
      = depsAllCompleted db deps := by
  induction deps with
  | nil => rfl
  | cons d ds ih =>
    simp only [depsAllCompleted, List.all_cons] at *
    rw [ih]
    congr 1
    rw [getTask_updateTaskWith db i d (fun t => { t with status := TaskStatus.pending })
      (fun t => rfl)]
    by_cases hdi : d = i
    · subst hdi
      rw [hu]
      simp [hb]
    · rw [if_neg hdi]

/-! ### Dependency-resolution pass -/

theorem processBlockedTask_db (s : SchedState) (u : Task) :
    (processBlockedTask s u).db =
      (if (u.dependsOn.isEmpty || depsAllCompleted s.db u.dependsOn) = true
        then updateTaskWith s.db u.id (fun v => { v with status := TaskStatus.pending })
        else s.db) := by
  unfold processBlockedTask
  cases hE : u.dependsOn.isEmpty <;> cases hC : depsAllCompleted s.db u.dependsOn <;>
    simp [hE, hC]

theorem processBlockedTask_log (s : SchedState) (u : Task) :
    (processBlockedTask s u).log =
      (if (!u.dependsOn.isEmpty && depsAllCompleted s.db u.dependsOn) = true
        then s.log ++ [Event.taskUnblocked u.id]
        else s.log) := by
  unfold processBlockedTask
  cases hE : u.dependsOn.isEmpty <;> cases hC : depsAllCompleted s.db u.dependsOn <;>
    simp [hE, hC]

theorem processBlockedTask_rest (s : SchedState) (u : Task) :
    (processBlockedTask s u).agents = s.agents
    ∧ (processBlockedTask s u).teamFile = s.teamFile
    ∧ (processBlockedTask s u).usage = s.usage
    ∧ (processBlockedTask s u).pausedForRateLimit = s.pausedForRateLimit
    ∧ (processBlockedTask s u).dispatchScriptExists = s.dispatchScriptExists
    ∧ (processBlockedTask s u).runningDispatches = s.runningDispatches := by
  unfold processBlockedTask
  cases hE : u.dependsOn.isEmpty <;> cases hC : depsAllCompleted s.db u.dependsOn <;>
    simp [hE, hC]

theorem foldProcess_spec (l : List Task) (s : SchedState)
    (hids : (l.map Task.id).Nodup)
    (hmem : ∀ u ∈ l, getTask s.db u.id = some u ∧ u.status = TaskStatus.blocked) :
    (∀ t ∈ l, getTask (l.foldl processBlockedTask s).db t.id =
        some (if (t.dependsOn.isEmpty || depsAllCompleted s.db t.dependsOn) = true
          then { t with status := TaskStatus.pending } else t))
    ∧ (∀ i, (∀ u ∈ l, u.id ≠ i) →
        getTask (l.foldl processBlockedTask s).db i = getTask s.db i)
    ∧ (∀ deps, depsAllCompleted (l.foldl processBlockedTask s).db deps
        = depsAllCompleted s.db deps)
    ∧ (∀ j, Event.taskUnblocked j ∈ (l.foldl processBlockedTask s).log ↔
        (Event.taskUnblocked j ∈ s.log ∨
          ∃ u ∈ l, u.id = j ∧ u.dependsOn.isEmpty = false
            ∧ depsAllCompleted s.db u.dependsOn = true)) := by
  induction l generalizing s with
  | nil =>
    refine ⟨?_, ?_, ?_, ?_⟩ <;> simp
  | cons u rest ih =>
    obtain ⟨hgu, hbu⟩ := hmem u (List.mem_cons_self u rest)
    simp only [List.map_cons, List.nodup_cons] at hids
    obtain ⟨hun, hnd⟩ := hids
    have hne : ∀ v ∈ rest, v.id ≠ u.id := by
      intro v hv hvu
      exact hun (by rw [← hvu]; exact List.mem_map_of_mem Task.id hv)
    -- facts about the single step
    have F1 : getTask (processBlockedTask s u).db u.id =
        some (if (u.dependsOn.isEmpty || depsAllCompleted s.db u.dependsOn) = true
          then { u with status := TaskStatus.pending } else u) := by
      rw [processBlockedTask_db]
      split
      · rw [getTask_updateTaskWith s.db u.id u.id
          (fun v => { v with status := TaskStatus.pending }) (fun v => rfl),
          if_pos rfl, hgu, Option.map_some']
      · exact hgu
    have F2 : ∀ i, u.id ≠ i →
        getTask (processBlockedTask s u).db i = getTask s.db i := by
      intro i hi
      rw [processBlockedTask_db]
      split
      · rw [getTask_updateTaskWith s.db u.id i
          (fun v => { v with status := TaskStatus.pending }) (fun v => rfl),
          if_neg (fun hh => hi hh.symm)]
      · rfl
    have F3 : ∀ deps, depsAllCompleted (processBlockedTask s u).db deps
        = depsAllCompleted s.db deps := by
      intro deps
      rw [processBlockedTask_db]
      split
      · exact depsAllCompleted_update_pending s.db u.id deps hgu hbu
      · rfl
    have hmem2 : ∀ v ∈ rest, getTask (processBlockedTask s u).db v.id = some v
        ∧ v.status = TaskStatus.blocked := by
      intro v hv
      obtain ⟨hg, hb⟩ := hmem v (List.mem_cons_of_mem u hv)
      exact ⟨by rw [F2 v.id (fun hh => hne v hv hh.symm)]; exact hg, hb⟩
    obtain ⟨ih1, ih2, ih3, ih4⟩ := ih (processBlockedTask s u) hnd hmem2
    rw [List.foldl_cons]
    refine ⟨?_, ?_, ?_, ?_⟩
    · intro t ht
      rcases List.mem_cons.mp ht with rfl | hts
      · rw [ih2 t.id (fun v hv => hne v hv), F1]
      · rw [ih1 t hts, F3]
    · intro i hi
      rw [ih2 i (fun v hv => hi v (List.mem_cons_of_mem u hv)),
        F2 i (hi u (List.mem_cons_self u rest))]
    · intro deps
      rw [ih3 deps, F3 deps]
    · intro j
      rw [ih4 j]
      simp only [F3]
      rw [processBlockedTask_log]
      constructor
      · rintro (hin | ⟨v, hv, hvj, hve, hvc⟩)
        · split at hin
          · rcases List.mem_append.mp hin with hin2 | hin2
            · exact Or.inl hin2
            · rename_i hcond
              simp only [Bool.and_eq_true, Bool.not_eq_true'] at hcond
              refine Or.inr ⟨u, List.mem_cons_self u rest, ?_, hcond.1, hcond.2⟩
              have := List.mem_singleton.mp hin2
              exact (Event.taskUnblocked.injEq _ _).mp this.symm
          · exact Or.inl hin
        · exact Or.inr ⟨v, List.mem_cons_of_mem u hv, hvj, hve, hvc⟩
      · rintro (hin | ⟨v, hv, hvj, hve, hvc⟩)
        · left
          split
          · exact List.mem_append.mpr (Or.inl hin)
          · exact hin
        · rcases List.mem_cons.mp hv with rfl | hv2
          · left
            have hcond : (!v.dependsOn.isEmpty && depsAllCompleted s.db v.dependsOn) = true := by
              simp [hve, hvc]
            rw [if_pos hcond]
            exact List.mem_append.mpr (Or.inr (by simp [hvj]))
          · exact Or.inr ⟨v, hv2, hvj, hve, hvc⟩

/-- The `_update_blocked_tasks` pass transitions a blocked task to pending
exactly when its dependency list is empty or all its dependencies are
completed; otherwise the row is untouched. -/
theorem updateBlockedTasks_getTask (s : SchedState)
    (hnd : (s.db.map Task.id).Nodup) (t : Task) (ht : t ∈ blockedTasks s.db) :
    getTask (updateBlockedTasks s).db t.id =
      some (if (t.dependsOn.isEmpty || depsAllCompleted s.db t.dependsOn) = true
        then { t with status := TaskStatus.pending } else t) := by
  have hsub : (blockedTasks s.db).Sublist s.db := List.filter_sublist s.db
  have hids : ((blockedTasks s.db).map Task.id).Nodup :=
    (hsub.map Task.id).nodup hnd
  have hmem : ∀ u ∈ blockedTasks s.db,
      getTask s.db u.id = some u ∧ u.status = TaskStatus.blocked := by
    intro u hu
    have hu2 := List.mem_filter.mp hu
    exact ⟨getTask_eq_of_mem hnd hu2.1, by simpa using hu2.2⟩
  exact (foldProcess_spec (blockedTasks s.db) s hids hmem).1 t ht

/-- C1: a blocked task processed by a scheduler pass is transitioned to
pending if and only if its dependency list is empty or every listed
dependency exists and is completed; otherwise its row is left untouched (in
particular still blocked). -/
theorem c1_dependency_gating (s : SchedState) (hnd : (s.db.map Task.id).Nodup)
    (t : Task) (ht : t ∈ blockedTasks s.db) :
    ((getTask (updateBlockedTasks s).db t.id
        = some { t with status := TaskStatus.pending })
      ↔ (t.dependsOn = [] ∨ depsAllCompleted s.db t.dependsOn = true))
    ∧ ((t.dependsOn ≠ [] ∧ depsAllCompleted s.db t.dependsOn = false) →
        getTask (updateBlockedTasks s).db t.id = some t) := by
  have h := updateBlockedTasks_getTask s hnd t ht
  have hb : t.status = TaskStatus.blocked := by
    have := (List.mem_filter.mp ht).2
    simpa using this
  cases hcond : (t.dependsOn.isEmpty || depsAllCompleted s.db t.dependsOn) with
  | true =>
    rw [hcond, if_pos rfl] at h
    simp only [Bool.or_eq_true, List.isEmpty_iff] at hcond
    refine ⟨⟨fun _ => hcond, fun _ => h⟩, fun hcon => ?_⟩
    rcases hcond with h1 | h2
    · exact absurd h1 hcon.1
    · rw [h2] at hcon
      cases hcon.2
  | false =>
    rw [hcond] at h
    simp only [Bool.false_eq_true, if_false] at h
    simp only [Bool.or_eq_false_iff, List.isEmpty_eq_false, ne_eq] at hcond
    refine ⟨⟨fun hp => ?_, fun hor => ?_⟩, fun _ => h⟩
    · rw [h] at hp
      have := congrArg Task.status (Option.some.inj hp)
      rw [hb] at this
      cases this
    · rcases hor with h1 | h2
      · exact absurd h1 hcond.1
      · rw [h2] at hcond
        cases hcond.2

/-- Witness for C1 at a concrete store: task b is blocked on completed task
a, so one pass makes it pending. -/
theorem c1_dependency_gating_witness :
    ((getTask (updateBlockedTasks { baseState with
          db := [mkTask "a" TaskStatus.completed [], mkTask "b" TaskStatus.blocked ["a"]] }).db
        (mkTask "b" TaskStatus.blocked ["a"]).id
        = some { mkTask "b" TaskStatus.blocked ["a"] with status := TaskStatus.pending })
      ↔ ((mkTask "b" TaskStatus.blocked ["a"]).dependsOn = []
        ∨ depsAllCompleted [mkTask "a" TaskStatus.completed [],
            mkTask "b" TaskStatus.blocked ["a"]]
            (mkTask "b" TaskStatus.blocked ["a"]).dependsOn = true)) := by
  have h := c1_dependency_gating
    { baseState with
      db := [mkTask "a" TaskStatus.completed [], mkTask "b" TaskStatus.blocked ["a"]] }
    (by decide)
    (mkTask "b" TaskStatus.blocked ["a"])
    (by decide)
  exact h.1

theorem find?_id_eq {db : List Task} {i : String} {t : Task}
    (ht : getTask db i = some t) : t.id = i := by
  have h := List.find?_some ht
  simpa using h

theorem failOnce_retry (s : SchedState) (i : String) (a : Agent)
    (e dT fT : String) (t : Task)
    (hscript : s.dispatchScriptExists = true)
    (ht : getTask s.db i = some t)
    (hle : t.retryCount + 1 ≤ t.maxRetries) :
    getTask (failOnce s i a e dT fT).db i =
      some { t with
             status := TaskStatus.pending,
             retryCount := t.retryCount + 1,
             agentId := none,
             startedAt := none,
             error := some ("Retry " ++ toString (t.retryCount + 1) ++ "/"
               ++ toString t.maxRetries ++ ": " ++ e.take 200) }
    ∧ (failOnce s i a e dT fT).log
        = s.log ++ [Event.taskStarted i a.id, Event.taskRetry i (t.retryCount + 1)]
    ∧ (failOnce s i a e dT fT).db.map Task.id = s.db.map Task.id
    ∧ (failOnce s i a e dT fT).dispatchScriptExists = true := by
  have hti : t.id = i := find?_id_eq ht
  subst hti
  simp [failOnce, ht, dispatchTask, runDispatchFailure, handleTaskFailure, hscript, hle,
    getTask_updateTaskWith, map_id_updateTaskWith]

theorem failOnce_fail (s : SchedState) (i : String) (a : Agent)
    (e dT fT : String) (t : Task)
    (hscript : s.dispatchScriptExists = true)
    (ht : getTask s.db i = some t)
    (hgt : ¬ (t.retryCount + 1 ≤ t.maxRetries)) :
    getTask (failOnce s i a e dT fT).db i =
      some { t with
             status := TaskStatus.failed,
             agentId := some a.id,
             startedAt := some dT,
             completedAt := some fT,
             error := some ("Failed after " ++ toString t.maxRetries ++ " retries: "
               ++ e.take 200) }
    ∧ (failOnce s i a e dT fT).log
        = s.log ++ [Event.taskStarted i a.id, Event.taskFailed i]
    ∧ (failOnce s i a e dT fT).db.map Task.id = s.db.map Task.id
    ∧ (failOnce s i a e dT fT).dispatchScriptExists = true := by
  have hti : t.id = i := find?_id_eq ht
  subst hti
  simp [failOnce, ht, dispatchTask, runDispatchFailure, handleTaskFailure, hscript, hgt,
    getTask_updateTaskWith, map_id_updateTaskWith]

/-- C2: with max_retries 2 and three consecutive dispatch failures, the
first two failures reset the task to pending with the agent binding and
start time cleared and retry_count incremented to 1 then 2; the third
failure persists the failed state with retry_count still 2 (the terminal
branch does not write retry_count); the broadcasts are task_retry twice then
task_failed; and the failed task is no longer in the pending queue the
scheduler dispatches from. -/
theorem c2_retry_bound (s : SchedState) (i : String) (a : Agent) (t : Task)
    (e1 e2 e3 d1 f1 d2 f2 d3 f3 : String)
    (hscript : s.dispatchScriptExists = true)
    (hnd : (s.db.map Task.id).Nodup)
    (ht : getTask s.db i = some t)
    (hrc : t.retryCount = 0) (hmr : t.maxRetries = 2) :
    getTask (failOnce s i a e1 d1 f1).db i =
      some { t with
             status := TaskStatus.pending,
             retryCount := 1,
             agentId := none,
             startedAt := none,
             error := some ("Retry 1/2: " ++ e1.take 200) }
    ∧ getTask (failOnce (failOnce s i a e1 d1 f1) i a e2 d2 f2).db i =
      some { t with
             status := TaskStatus.pending,
             retryCount := 2,
             agentId := none,
             startedAt := none,
             error := some ("Retry 2/2: " ++ e2.take 200) }
    ∧ getTask
        (failOnce (failOnce (failOnce s i a e1 d1 f1) i a e2 d2 f2) i a e3 d3 f3).db i =
      some { t with
             status := TaskStatus.failed,
             retryCount := 2,
             agentId := some a.id,
             startedAt := some d3,
             completedAt := some f3,
             error := some ("Failed after 2 retries: " ++ e3.take 200) }
    ∧ (failOnce (failOnce (failOnce s i a e1 d1 f1) i a e2 d2 f2) i a e3 d3 f3).log
      = s.log ++ [Event.taskStarted i a.id, Event.taskRetry i 1,
          Event.taskStarted i a.id, Event.taskRetry i 2,
          Event.taskStarted i a.id, Event.taskFailed i]
    ∧ ∀ u ∈ pendingTasks
        (failOnce (failOnce (failOnce s i a e1 d1 f1) i a e2 d2 f2) i a e3 d3 f3).db,
        u.id ≠ i := by
  have hS1 : "Retry " ++ toString (1 : Nat) ++ "/" ++ toString (2 : Nat) ++ ": "
      = "Retry 1/2: " := by decide
  have hS2 : "Retry " ++ toString (2 : Nat) ++ "/" ++ toString (2 : Nat) ++ ": "
      = "Retry 2/2: " := by decide
  have hS3 : "Failed after " ++ toString (2 : Nat) ++ " retries: "
      = "Failed after 2 retries: " := by decide
  obtain ⟨H1g, H1log, H1ids, H1scr⟩ :=
    failOnce_retry s i a e1 d1 f1 t hscript ht (by rw [hrc, hmr]; decide)
  obtain ⟨H2g, H2log, H2ids, H2scr⟩ :=
    failOnce_retry _ i a e2 d2 f2 _ H1scr H1g (by simp [hrc, hmr])
  obtain ⟨H3g, H3log, H3ids, H3scr⟩ :=
    failOnce_fail _ i a e3 d3 f3 _ H2scr H2g (by simp [hrc, hmr])
  refine ⟨?_, ?_, ?_, ?_, ?_⟩
  · rw [H1g]
    simp [hrc, hmr, hS1]
  · rw [H2g]
    simp [hrc, hmr, hS2]
  · rw [H3g]
    simp [hrc, hmr, hS3]
  · rw [H3log, H2log, H1log]
    simp [hrc, List.append_assoc]
  · intro u hu hui
    have hnd3 : (((failOnce (failOnce (failOnce s i a e1 d1 f1) i a e2 d2 f2)
        i a e3 d3 f3).db).map Task.id).Nodup := by
      rw [H3ids, H2ids, H1ids]
      exact hnd
    have hu2 := List.mem_filter.mp (List.mem_mergeSort.mp hu)
    have hust : u.status = TaskStatus.pending := by simpa using hu2.2
    have hg : getTask
        (failOnce (failOnce (failOnce s i a e1 d1 f1) i a e2 d2 f2) i a e3 d3 f3).db u.id
        = some u := getTask_eq_of_mem hnd3 hu2.1
    rw [hui] at hg
    have hue : u = _ := Option.some.inj (hg.symm.trans H3g)
    rw [hue] at hust
    simp at hust

/-- Witness for C2 at a concrete store: task t1 with retry_count 0 and
max_retries 2 dispatched to alice three times, each dispatch failing, ends
failed with retry_count 2. -/
theorem c2_retry_bound_witness :
    getTask (failOnce (failOnce (failOnce
        { baseState with db := [mkTask "t1" TaskStatus.pending []] }
        "t1" (mkAgent "a1" "alice") "boom" "d1" "f1")
        "t1" (mkAgent "a1" "alice") "boom" "d2" "f2")
        "t1" (mkAgent "a1" "alice") "boom" "d3" "f3").db "t1" =
      some { mkTask "t1" TaskStatus.pending [] with
             status := TaskStatus.failed,
             retryCount := 2,
             agentId := some (mkAgent "a1" "alice").id,
             startedAt := some "d3",
             completedAt := some "f3",
             error := some ("Failed after 2 retries: " ++ "boom".take 200) } := by
  have h := c2_retry_bound
    { baseState with db := [mkTask "t1" TaskStatus.pending []] }
    "t1" (mkAgent "a1" "alice") (mkTask "t1" TaskStatus.pending [])
    "boom" "boom" "boom" "d1" "f1" "d2" "f2" "d3" "f3"
    (by decide) (by decide) (by decide) (by decide) (by decide)
  exact h.2.2.1

/-- C9 as stated is false: the defensive blocked-to-pending transition of a
task with an empty dependency list does not broadcast task_unblocked.  At
this concrete store the blocked task b with no dependencies transitions to
pending, yet no task_unblocked broadcast appears in the log. -/
theorem c9_counterexample :
    (getTask (updateBlockedTasks { baseState with
        db := [mkTask "b" TaskStatus.blocked []] }).db "b"
      = some { mkTask "b" TaskStatus.blocked [] with status := TaskStatus.pending })
    ∧ Event.taskUnblocked "b" ∉
        (updateBlockedTasks { baseState with
          db := [mkTask "b" TaskStatus.blocked []] }).log := by
  constructor
  · decide
  · decide

/-- C9 amended: a task_unblocked broadcast is emitted for a blocked task
processed by dependency resolution if and only if its dependency list is
non-empty and every dependency is completed; the defensive transition of a
blocked task with an empty dependency list emits no broadcast. -/
theorem c9_unblocked_broadcast (s : SchedState) (hnd : (s.db.map Task.id).Nodup)
    (hlog : s.log = []) (t : Task) (ht : t ∈ blockedTasks s.db) :
    Event.taskUnblocked t.id ∈ (updateBlockedTasks s).log ↔
      (t.dependsOn ≠ [] ∧ depsAllCompleted s.db t.dependsOn = true) := by
  have hsub : (blockedTasks s.db).Sublist s.db := List.filter_sublist s.db
  have hids : ((blockedTasks s.db).map Task.id).Nodup :=
    (hsub.map Task.id).nodup hnd
  have hmem : ∀ u ∈ blockedTasks s.db,
      getTask s.db u.id = some u ∧ u.status = TaskStatus.blocked := by
    intro u hu
    have hu2 := List.mem_filter.mp hu
    exact ⟨getTask_eq_of_mem hnd hu2.1, by simpa using hu2.2⟩
  have h := (foldProcess_spec (blockedTasks s.db) s hids hmem).2.2.2 t.id
  rw [hlog] at h
  simp only [List.not_mem_nil, false_or] at h
  rw [show updateBlockedTasks s = (blockedTasks s.db).foldl processBlockedTask s from rfl, h]
  constructor
  · rintro ⟨u, hu, huid, hue, huc⟩
    have : u = t := task_eq_of_id_eq hids hu ht huid
    subst this
    exact ⟨by simpa [List.isEmpty_eq_false] using hue, huc⟩
  · rintro ⟨h1, h2⟩
    exact ⟨t, ht, rfl, by simpa [List.isEmpty_eq_false] using h1, h2⟩

theorem startedCount_append (l1 l2 : List Event) :
    startedCount (l1 ++ l2) = startedCount l1 + startedCount l2 := by
  simp [startedCount, List.filter_append]

theorem startedCount_foldProcess (l : List Task) (s : SchedState) :
    startedCount ((l.foldl processBlockedTask s).log) = startedCount s.log := by
  induction l generalizing s with
  | nil => rfl
  | cons u rest ih =>
    rw [List.foldl_cons, ih, processBlockedTask_log]
    split
    · rw [startedCount_append]
      simp [startedCount]
    · rfl

theorem foldProcess_fields (l : List Task) (s : SchedState) :
    (l.foldl processBlockedTask s).agents = s.agents
    ∧ (l.foldl processBlockedTask s).teamFile = s.teamFile
    ∧ (l.foldl processBlockedTask s).usage = s.usage
    ∧ (l.foldl processBlockedTask s).pausedForRateLimit = s.pausedForRateLimit
    ∧ (l.foldl processBlockedTask s).dispatchScriptExists = s.dispatchScriptExists
    ∧ (l.foldl processBlockedTask s).runningDispatches = s.runningDispatches := by
  induction l generalizing s with
  | nil => exact ⟨rfl, rfl, rfl, rfl, rfl, rfl⟩
  | cons u rest ih =>
    rw [List.foldl_cons]
    have h1 := processBlockedTask_rest s u
    have h2 := ih (processBlockedTask s u)
    exact ⟨h2.1.trans h1.1, h2.2.1.trans h1.2.1, h2.2.2.1.trans h1.2.2.1,
      h2.2.2.2.1.trans h1.2.2.2.1, h2.2.2.2.2.1.trans h1.2.2.2.2.1,
      h2.2.2.2.2.2.trans h1.2.2.2.2.2⟩

theorem startedCount_dispatchTask (s : SchedState) (t : Task) (a : Agent) (now : String) :
    startedCount (dispatchTask s t a now).1.log = startedCount s.log + 1 := by
  simp only [dispatchTask, handleTaskFailure]
  split_ifs <;> simp [startedCount_append, startedCount]

theorem startedCount_assignLoop_le (agents : List Agent) (s : SchedState)
    (pending : List Task) (throttle : Bool) (now : String) :
    startedCount (assignLoop s agents pending throttle now).log ≤
      startedCount s.log + agents.length := by
  induction agents generalizing s pending with
  | nil => simp [assignLoop]
  | cons a rest ih =>
    simp only [assignLoop]
    split
    · simp
    · split
      · split
        · rw [startedCount_dispatchTask]
          simp only [List.length_cons]
          omega
        · refine le_trans (ih _ _) ?_
          rw [startedCount_dispatchTask]
          simp only [List.length_cons]
          omega
      · refine le_trans (ih _ _) ?_
        simp only [List.length_cons]
        omega

theorem updateBlockedTasks_untouched (s : SchedState)
    (hnd : (s.db.map Task.id).Nodup) (i : String)
    (hno : ∀ u ∈ blockedTasks s.db, u.id ≠ i) :
    getTask (updateBlockedTasks s).db i = getTask s.db i := by
  have hsub : (blockedTasks s.db).Sublist s.db := List.filter_sublist s.db
  have hids : ((blockedTasks s.db).map Task.id).Nodup :=
    (hsub.map Task.id).nodup hnd
  have hmem : ∀ u ∈ blockedTasks s.db,
      getTask s.db u.id = some u ∧ u.status = TaskStatus.blocked := by
    intro u hu
    have hu2 := List.mem_filter.mp hu
    exact ⟨getTask_eq_of_mem hnd hu2.1, by simpa using hu2.2⟩
  exact (foldProcess_spec (blockedTasks s.db) s hids hmem).2.1 i hno

/-- C5: an agent in the idle pool computed by a scheduler pass is never the
leader, never inactive, always has team-state status idle or done, and is
never the agent of a running task — both in the store the pool is computed
from and in the store as it was at the start of the pass. -/
theorem c5_idle_pool_exclusions (s : SchedState) (hnd : (s.db.map Task.id).Nodup)
    (a : Agent) (ha : a ∈ getIdleAgents (updateBlockedTasks s)) :
    a.isLeader = false
    ∧ a.status = "active"
    ∧ (teamAgentStatus (getTeamState s.teamFile) a.name = "idle"
        ∨ teamAgentStatus (getTeamState s.teamFile) a.name = "done")
    ∧ (∀ t ∈ (updateBlockedTasks s).db, t.status = TaskStatus.running →
        t.agentId ≠ some a.id)
    ∧ (∀ t ∈ s.db, t.status = TaskStatus.running → t.agentId ≠ some a.id) := by
  have hteam : (updateBlockedTasks s).teamFile = s.teamFile :=
    (foldProcess_fields (blockedTasks s.db) s).2.1
  simp only [getIdleAgents] at ha
  have ha2 := List.mem_filter.mp ha
  obtain ⟨hmem, hp⟩ := ha2
  simp only [Bool.and_eq_true, Bool.not_eq_true', Bool.or_eq_true, beq_iff_eq] at hp
  obtain ⟨⟨hl, hact⟩, hstat, hcont⟩ := hp
  rw [hteam] at hstat
  have hrun2 : ∀ t ∈ (updateBlockedTasks s).db, t.status = TaskStatus.running →
      t.agentId ≠ some a.id := by
    intro t htm htr heq
    have hin : some a.id ∈ runningAgentIds (updateBlockedTasks s).db := by
      rw [← heq]
      exact List.mem_map_of_mem _ (List.mem_filter.mpr ⟨htm, by simp [htr]⟩)
    have hnotin : some a.id ∉ runningAgentIds (updateBlockedTasks s).db := by
      simpa using hcont
    exact hnotin hin
  refine ⟨hl, hact, hstat, hrun2, ?_⟩
  intro t htm htr heq
  have hno : ∀ u ∈ blockedTasks s.db, u.id ≠ t.id := by
    intro u hu huid
    have hu2 := List.mem_filter.mp hu
    have hub : u.status = TaskStatus.blocked := by simpa using hu2.2
    have : u = t := task_eq_of_id_eq hnd hu2.1 htm huid
    rw [this, htr] at hub
    cases hub
  have hgt : getTask (updateBlockedTasks s).db t.id = some t := by
    rw [updateBlockedTasks_untouched s hnd t.id hno]
    exact getTask_eq_of_mem hnd htm
  have htm2 : t ∈ (updateBlockedTasks s).db := List.mem_of_find?_eq_some hgt
  exact hrun2 t htm2 htr heq

/-- Witness for C5: with agent a1 idle (team state missing) and no tasks, the
pool contains a1 and the exclusions hold. -/
theorem c5_idle_pool_exclusions_witness :
    (mkAgent "a1" "alice").isLeader = false
    ∧ (mkAgent "a1" "alice").status = "active"
    ∧ (teamAgentStatus (getTeamState TeamFile.missing) "alice" = "idle"
        ∨ teamAgentStatus (getTeamState TeamFile.missing) "alice" = "done") := by
  have h := c5_idle_pool_exclusions
    { baseState with agents := [mkAgent "a1" "alice"] } (by decide)
    (mkAgent "a1" "alice") (by decide)
  exact ⟨h.1, h.2.1, h.2.2.1⟩

/-- C10: an active non-leader agent with no running task is treated as idle
and included in the idle pool whenever the team-state file is missing,
unparseable, or has no entry for the agent's name. -/
theorem c10_team_state_default_idle (s : SchedState) (a : Agent)
    (hmem : a ∈ s.agents) (hleader : a.isLeader = false)
    (hactive : a.status = "active")
    (hrun : ∀ t ∈ s.db, t.status = TaskStatus.running → t.agentId ≠ some a.id)
    (hteam : s.teamFile = TeamFile.missing ∨ s.teamFile = TeamFile.unparseable
      ∨ (∃ ts, s.teamFile = TeamFile.parsed ts ∧ ts.agents.lookup a.name = none)) :
    teamAgentStatus (getTeamState s.teamFile) a.name = "idle"
    ∧ a ∈ getIdleAgents s := by
  have hst : teamAgentStatus (getTeamState s.teamFile) a.name = "idle" := by
    rcases hteam with h | h | ⟨ts, h, hl⟩
    · rw [h]
      rfl
    · rw [h]
      rfl
    · rw [h]
      simp only [getTeamState, teamAgentStatus, hl]
  have hnotin : some a.id ∉ runningAgentIds s.db := by
    intro hin
    obtain ⟨t, htm, hta⟩ := List.mem_map.mp hin
    have ht2 := List.mem_filter.mp htm
    exact hrun t ht2.1 (by simpa using ht2.2) hta
  refine ⟨hst, ?_⟩
  simp only [getIdleAgents]
  refine List.mem_filter.mpr ⟨hmem, ?_⟩
  simp [hleader, hactive, hst, hnotin]

/-- Witness for C10: a parsed team-state document with an entry only for
another agent still lets alice into the idle pool. -/
theorem c10_team_state_default_idle_witness :
    teamAgentStatus
      (getTeamState (TeamFile.parsed ⟨some "scheduled", [("bob", some "working")]⟩))
      "alice" = "idle"
    ∧ mkAgent "a1" "alice" ∈ getIdleAgents { baseState with
        agents := [mkAgent "a1" "alice"],
        teamFile := TeamFile.parsed ⟨some "scheduled", [("bob", some "working")]⟩,
        db := [mkTask "t1" TaskStatus.pending []] } := by
  exact c10_team_state_default_idle
    { baseState with
      agents := [mkAgent "a1" "alice"],
      teamFile := TeamFile.parsed ⟨some "scheduled", [("bob", some "working")]⟩,
      db := [mkTask "t1" TaskStatus.pending []] }
    (mkAgent "a1" "alice")
    (by decide) (by decide) (by decide)
    (by decide)
    (Or.inr (Or.inr ⟨⟨some "scheduled", [("bob", some "working")]⟩, rfl, by decide⟩))

theorem string_append_right_ne_empty (x y : String) (hy : y.length ≠ 0) :
    x ++ y ≠ "" := by
  intro h
  have h2 := congrArg String.length h
  rw [String.length_append] at h2
  have h0 : ("" : String).length = 0 := rfl
  rw [h0] at h2
  exact hy (by omega)

/-- C3: with the default threshold, should_pause returns true exactly when
today's messages reach 9000 (90% of the 10000 message limit) or today's
tokens reach 1800000 (90% of the 2000000 token limit), always with a
non-empty reason; and a scheduler pass under should_pause broadcasts no
task_started at all, i.e. dispatches zero tasks. -/
theorem c3_rate_limit_hard_gate (s : SchedState) (now : String) :
    ((shouldPause s.usage).1 = true ↔
      (9000 ≤ s.usage.messagesToday ∨ 1800000 ≤ s.usage.tokensToday))
    ∧ ((shouldPause s.usage).1 = true → (shouldPause s.usage).2 ≠ "")
    ∧ ((shouldPause s.usage).1 = true →
        startedCount (processQueue s now).log = startedCount s.log) := by
  refine ⟨?_, ?_, ?_⟩
  · unfold shouldPause
    split_ifs with h1 h2
    · simp [h1]
    · simp [h1, h2]
    · simp [h1, h2]
  · unfold shouldPause
    split_ifs with h1 h2
    · exact fun _ => string_append_right_ne_empty _ _ (by decide)
    · exact fun _ => string_append_right_ne_empty _ _ (by decide)
    · intro h
      cases h
  · intro h
    simp only [processQueue]
    rw [if_pos h]
    split
    · rw [startedCount_append]
      simp [startedCount]
    · rfl

/-- Witness for C3: at 9000 messages the pause gate is on, the reason is
non-empty, and the pass dispatches nothing. -/
theorem c3_rate_limit_hard_gate_witness :
    startedCount (processQueue { baseState with
      usage := { messagesToday := 9000, tokensToday := 0 } } "t1").log
      = startedCount ({ baseState with
        usage := { messagesToday := 9000, tokensToday := 0 } } : SchedState).log
    ∧ (shouldPause { messagesToday := 9000, tokensToday := 0 }).2 ≠ "" := by
  have h := c3_rate_limit_hard_gate
    { baseState with usage := { messagesToday := 9000, tokensToday := 0 } } "t1"
  exact ⟨h.2.2 (by decide), h.2.1 (by decide)⟩

/-- C4: when should_throttle is true and should_pause is false, a scheduler
pass broadcasts at most one task_started, i.e. dispatches at most one task,
however many idle agents and pending tasks exist. -/
theorem c4_throttle_soft_gate (s : SchedState) (now : String)
    (hthr : (shouldThrottle s.usage).1 = true)
    (hpause : (shouldPause s.usage).1 = false) :
    startedCount (processQueue s now).log ≤ startedCount s.log + 1 := by
  simp only [processQueue]
  rw [if_neg (by rw [hpause]; exact Bool.false_ne_true)]
  set s0 : SchedState := if s.pausedForRateLimit = true then
      { s with pausedForRateLimit := false, log := s.log ++ [Event.schedulerResumed] }
    else s with hs0
  have hlog0 : startedCount s0.log = startedCount s.log := by
    rw [hs0]
    split
    · rw [startedCount_append]
      simp [startedCount]
    · rfl
  have husage0 : s0.usage = s.usage := by
    rw [hs0]
    split <;> rfl
  have hlog1 : startedCount (updateBlockedTasks s0).log = startedCount s.log :=
    (startedCount_foldProcess _ _).trans hlog0
  have husage1 : (updateBlockedTasks s0).usage = s.usage :=
    ((foldProcess_fields (blockedTasks s0.db) s0).2.2.1).trans husage0
  split
  · rw [hlog1]
    exact Nat.le_succ _
  · split
    · rw [hlog1]
      exact Nat.le_succ _
    · have htr1 : (shouldThrottle (updateBlockedTasks s0).usage).1 = true := by
        rw [husage1]
        exact hthr
      rw [if_pos htr1]
      refine le_trans (startedCount_assignLoop_le _ _ _ _ _) ?_
      rw [hlog1]
      have hlen : ((getIdleAgents (updateBlockedTasks s0)).take 1).length ≤ 1 := by
        rw [List.length_take]
        exact min_le_left _ _
      omega

/-- Witness for C4: at 7000 messages throttling is on and pausing is off, and
a pass from a state with two idle agents and two pending tasks dispatches at
most one task. -/
theorem c4_throttle_soft_gate_witness :
    (shouldThrottle { messagesToday := 7000, tokensToday := 0 }).1 = true
    ∧ (shouldPause { messagesToday := 7000, tokensToday := 0 }).1 = false
    ∧ startedCount (processQueue { baseState with
        usage := { messagesToday := 7000, tokensToday := 0 },
        agents := [mkAgent "a1" "alice", mkAgent "a2" "bob"],
        db := [mkTask "t1" TaskStatus.pending [], mkTask "t2" TaskStatus.pending []] } "t1").log
      ≤ startedCount ({ baseState with
        usage := { messagesToday := 7000, tokensToday := 0 },
        agents := [mkAgent "a1" "alice", mkAgent "a2" "bob"],
        db := [mkTask "t1" TaskStatus.pending [], mkTask "t2" TaskStatus.pending []] }
          : SchedState).log + 1 := by
  refine ⟨by decide, by decide, ?_⟩
  exact c4_throttle_soft_gate _ "t1" (by decide) (by decide)

/-- C8: the first cancel_task on a tracked task returns true and persists the
failed state with the user-cancellation error; a second cancel_task on the
same id returns false and changes nothing; and cancel_task on an untracked
id always returns false and changes nothing. -/
theorem c8_cancel_idempotent (s : SchedState) (i now now2 : String) (t : Task)
    (htrack : s.runningDispatches.contains i = true)
    (ht : getTask s.db i = some t) :
    (cancelTask s i now).2 = true
    ∧ getTask (cancelTask s i now).1.db i =
      some { t with
             status := TaskStatus.failed,
             agentId := none,
             startedAt := none,
             completedAt := some now,
             error := some "Cancelled by user" }
    ∧ (cancelTask (cancelTask s i now).1 i now2).2 = false
    ∧ (cancelTask (cancelTask s i now).1 i now2).1 = (cancelTask s i now).1
    ∧ (∀ s2 : SchedState, ∀ j now3 : String,
        s2.runningDispatches.contains j = false →
        cancelTask s2 j now3 = (s2, false)) := by
  have htrack2 : i ∈ s.runningDispatches := by simpa using htrack
  have hc2 : i ∉ removeDispatch s.runningDispatches i := by
    simp [removeDispatch]
  refine ⟨?_, ?_, ?_, ?_, ?_⟩
  · simp [cancelTask, htrack2]
  · simp [cancelTask, htrack2, getTask_updateTaskWith, ht]
  · simp [cancelTask, htrack2, hc2]
  · simp [cancelTask, htrack2, hc2]
  · intro s2 j now3 h
    have h2 : j ∉ s2.runningDispatches := by simpa using h
    simp [cancelTask, h2]

/-- Witness for C8: a tracked task t1 is cancelled once (true), then again
(false). -/
theorem c8_cancel_idempotent_witness :
    (cancelTask { baseState with
        db := [mkTask "t1" TaskStatus.running []],
        runningDispatches := ["t1"] } "t1" "now1").2 = true
    ∧ (cancelTask (cancelTask { baseState with
        db := [mkTask "t1" TaskStatus.running []],
        runningDispatches := ["t1"] } "t1" "now1").1 "t1" "now2").2 = false := by
  have h := c8_cancel_idempotent
    { baseState with
      db := [mkTask "t1" TaskStatus.running []],
      runningDispatches := ["t1"] }
    "t1" "now1" "now2" (mkTask "t1" TaskStatus.running [])
    (by decide) (by decide)
  exact ⟨h.1, h.2.2.1⟩

/-- C6: the detector run on the literal line produces a permission_request
event with tool Write and options including Yes and No, setting the
waiting-for-input flag; delivering the queued response "Yes" writes exactly
that string to the subprocess and clears the flag. -/
theorem c6_permission_round_trip (r : RunnerState)
    (hp : r.pendingPermission = false) (hq : r.inputQueue = []) :
    (∃ ev, (detectPromptStep r "Allow Write to create /tmp/x.txt?").2 = some ev
      ∧ ev.tool = some "Write" ∧ "Yes" ∈ ev.options ∧ "No" ∈ ev.options)
    ∧ (detectPromptStep r "Allow Write to create /tmp/x.txt?").1.pendingPermission = true
    ∧ (awaitResponseStep (sendInput
        (detectPromptStep r "Allow Write to create /tmp/x.txt?").1 "Yes")).1.sentLines
      = r.sentLines ++ ["Yes"]
    ∧ (awaitResponseStep (sendInput
        (detectPromptStep r "Allow Write to create /tmp/x.txt?").1 "Yes")).1.pendingPermission
      = false := by
  have hcp : checkPermissionPrompt "Allow Write to create /tmp/x.txt?" =
      some { prompt := "Allow Write to create /tmp/x.txt?",
             tool := some "Write",
             action := some "create /tmp/x.txt",
             options := ["Yes", "No"] } := by decide
  refine ⟨⟨⟨"Allow Write to create /tmp/x.txt?", some "Write", some "create /tmp/x.txt",
      ["Yes", "No"]⟩, ?_, rfl, by simp, by simp⟩, ?_, ?_, ?_⟩
  · simp [detectPromptStep, hp, hcp]
  · simp [detectPromptStep, hp, hcp]
  · simp [detectPromptStep, hp, hcp, sendInput, awaitResponseStep, hq]
  · simp [detectPromptStep, hp, hcp, sendInput, awaitResponseStep, hq]

/-- Witness for C6 at the empty runner state. -/
theorem c6_permission_round_trip_witness :
    (awaitResponseStep (sendInput
        (detectPromptStep ⟨false, [], []⟩ "Allow Write to create /tmp/x.txt?").1
        "Yes")).1.sentLines = ([] : List String) ++ ["Yes"] := by
  have h := c6_permission_round_trip ⟨false, [], []⟩ rfl rfl
  exact h.2.2.1

theorem mem_of_mem_filterfold (l : List String) (init : List String) (p : String)
    (h : p ∈ l.foldl (fun f q => f.filter (fun x => !(x == q))) init) : p ∈ init := by
  induction l generalizing init with
  | nil => exact h
  | cons a rest ih =>
    have h2 := ih _ h
    exact (List.mem_filter.mp h2).1

theorem not_mem_filterfold (l : List String) (init : List String) (p : String)
    (hp : p ∈ l) : p ∉ l.foldl (fun f q => f.filter (fun x => !(x == q))) init := by
  induction l generalizing init with
  | nil => cases hp
  | cons a rest ih =>
    intro hin
    rcases List.mem_cons.mp hp with rfl | hrest
    · have h2 := mem_of_mem_filterfold rest _ p hin
      have h3 := (List.mem_filter.mp h2).2
      simp at h3
    · exact ih _ hrest hin

/-- C7: every temp image file created by a chat turn from its image inputs is
gone from the filesystem when the turn ends, whatever the outcome (success,
error or cancellation). -/
theorem c7_temp_image_cleanup (fs : List String) (tempDir : String) (pid : Nat)
    (images : List ImgInput) (outcome : RunOutcome) (p : String)
    (hp : p ∈ saveImages tempDir pid images) :
    p ∉ (runChat fs tempDir pid images outcome).1 := by
  simp only [runChat]
  exact not_mem_filterfold _ _ _ hp

/-- Witness for C7: the png saved for a data-URL input is absent after a
cancelled turn. -/
theorem c7_temp_image_cleanup_witness :
    "/tmp/claude_img_1_0.png" ∉
      (runChat ["/tmp/other.txt"] "/tmp" 1
        [{ payload := "data:image/png;base64,AAAA", decodeOk := true }]
        RunOutcome.cancelled).1 := by
  exact c7_temp_image_cleanup ["/tmp/other.txt"] "/tmp" 1
    [{ payload := "data:image/png;base64,AAAA", decodeOk := true }]
    RunOutcome.cancelled "/tmp/claude_img_1_0.png" (by decide)

/-- Witness for C9 amended: dependency ["a"] on a completed task a does
broadcast task_unblocked for b. -/
theorem c9_unblocked_broadcast_witness :
    Event.taskUnblocked (mkTask "b" TaskStatus.blocked ["a"]).id ∈
      (updateBlockedTasks { baseState with
        db := [mkTask "a" TaskStatus.completed [], mkTask "b" TaskStatus.blocked ["a"]] }).log := by
  have h := c9_unblocked_broadcast
    { baseState with
      db := [mkTask "a" TaskStatus.completed [], mkTask "b" TaskStatus.blocked ["a"]] }
    (by decide) rfl
    (mkTask "b" TaskStatus.blocked ["a"])
    (by decide)
  exact h.mpr (by decide)

end AgentMonitor
